import Mathlib

/-!
# Dataflow diagnostics (`lib/SILOptimizer/Mandatory/DataflowDiagnostics.cpp`)

A shallow embedding of the pass that turns `unreachable` terminators and
`Builtin.staticReport` calls of a SIL function into compiler diagnostics.

The diagnostic engine is the only thing the pass writes to.  It is modelled as
the ordered list of diagnostics emitted so far, threaded through every
function.  `llvm_unreachable` and a failing `assert` stop the pass: an execution
is either `returned` or `aborted`, and both carry the engine state reached.

Types that the file only uses through accessors (`SILLocation`, the AST nodes,
`SILFunction`) are records of what those accessors answer.
-/

namespace DataflowDiagnostics

/-! ## Source positions, types and diagnostics -/

/-- A `SourceLoc`: a position in the source text. -/
abbrev SourceLoc := Nat

/-- A Swift `Type` handle. It is nullable: `none` is the null type, which
`assert(L && ResTy)` rules out. -/
abbrev Ty := Option Nat

/-- The diagnostic identifiers of `diag::` that the pass uses. -/
inductive DiagID where
  | missing_never_call
  | missing_return
  | non_exhaustive_switch
  | guard_body_must_not_fallthrough
  | static_report_error
  deriving DecidableEq, Repr

/-- An argument handed to `DiagnosticEngine::diagnose` after the identifier. -/
inductive DiagnosticArgument where
  | type (T : Ty)
  | unsigned (N : Nat)
  deriving DecidableEq, Repr

/-- One call of `DiagnosticEngine::diagnose(loc, diag, args...)`. -/
structure Diagnostic where
  Loc : SourceLoc
  ID : DiagID
  Args : List DiagnosticArgument
  deriving DecidableEq, Repr

/-- The diagnostic engine `Context.Diags`: the calls it has received, oldest
first. -/
structure DiagnosticEngine where
  Emitted : List Diagnostic
  deriving DecidableEq, Repr

/-- The engine after one more `diagnose` call. -/
def DiagnosticEngine.diagnose (Diags : DiagnosticEngine) (loc : SourceLoc) (diag : DiagID)
    (args : List DiagnosticArgument) : DiagnosticEngine :=
  ⟨Diags.Emitted ++ [⟨loc, diag, args⟩]⟩

/-- The `ASTContext`, of which the pass touches the field `Diags` only. -/
structure ASTContext where
  Diags : DiagnosticEngine
  deriving DecidableEq, Repr

/-- The `SILModule`, of which the pass uses `getASTContext()` only. -/
structure SILModule where
  Context : ASTContext
  deriving DecidableEq, Repr

/-- Accessor `M.getASTContext()`. -/
def SILModule.getASTContext (M : SILModule) : ASTContext := M.Context

/-- The file-local helper `diagnose(Context, loc, diag, args...)`, lines 26-31:
it forwards to `Context.Diags.diagnose`. -/
def diagnose (Context : ASTContext) (loc : SourceLoc) (diag : DiagID)
    (args : List DiagnosticArgument) : ASTContext :=
  { Context with Diags := Context.Diags.diagnose loc diag args }

/-! ## AST nodes and locations -/

/-- A `FuncDecl`, read through `getResultInterfaceType()`. -/
structure FuncDecl where
  ResultInterfaceType : Ty
  deriving DecidableEq, Repr

/-- A `ClosureExpr`, read through `getResultType()`. -/
structure ClosureExpr where
  ResultType : Ty
  deriving DecidableEq, Repr

/-- A `BraceStmt`, read through `getEndLoc()`. -/
structure BraceStmt where
  EndLoc : SourceLoc
  deriving DecidableEq, Repr

/-- A `GuardStmt`, read through `getBody()`. -/
structure GuardStmt where
  Body : BraceStmt
  deriving DecidableEq, Repr

/-- The AST node a location holds, by the classes the pass tells apart.
`FuncDecl`, `ConstructorDecl` and `DestructorDecl` are the three subclasses of
`AbstractFunctionDecl`; `Other` stands for every other node. -/
inductive ASTNode where
  | FuncDecl (FD : FuncDecl)
  | ConstructorDecl
  | DestructorDecl
  | ClosureExpr (CE : ClosureExpr)
  | SwitchStmt
  | GuardStmt (Guard : GuardStmt)
  | Other
  deriving DecidableEq, Repr

/-- A `SILLocation`, as the answers of the accessors the pass calls on it. -/
structure SILLocation where
  /-- Answer of `isNull()`, so that `!L` is `isNull` and `L` in a condition is its negation. -/
  isNull : Bool
  /-- Answer of `is<MandatoryInlinedLocation>()`. -/
  isMandatoryInlinedLocation : Bool
  /-- The primary AST node, which `isASTNode<T>()` and `getAsASTNode<T>()` inspect. -/
  Node : Option ASTNode
  /-- Answer of `getSourceLoc()`. -/
  Source : SourceLoc
  /-- Answer of `getEndSourceLoc()`. -/
  EndSource : SourceLoc
  deriving DecidableEq, Repr

/-- Accessor `L.getSourceLoc()`. -/
def SILLocation.getSourceLoc (L : SILLocation) : SourceLoc := L.Source

/-- Accessor `L.getEndSourceLoc()`. -/
def SILLocation.getEndSourceLoc (L : SILLocation) : SourceLoc := L.EndSource

/-- Test `L.isASTNode<AbstractFunctionDecl>()`. -/
def SILLocation.isASTNode_AbstractFunctionDecl (L : SILLocation) : Bool :=
  match L.Node with
  | some (ASTNode.FuncDecl _) => true
  | some ASTNode.ConstructorDecl => true
  | some ASTNode.DestructorDecl => true
  | _ => false

/-- Test `L.isASTNode<ClosureExpr>()`. -/
def SILLocation.isASTNode_ClosureExpr (L : SILLocation) : Bool :=
  match L.Node with
  | some (ASTNode.ClosureExpr _) => true
  | _ => false

/-- Test `L.isASTNode<SwitchStmt>()`. -/
def SILLocation.isASTNode_SwitchStmt (L : SILLocation) : Bool :=
  match L.Node with
  | some ASTNode.SwitchStmt => true
  | _ => false

/-- Cast `L.getAsASTNode<FuncDecl>()`; `none` is the null pointer. -/
def SILLocation.getAsASTNode_FuncDecl (L : SILLocation) : Option DataflowDiagnostics.FuncDecl :=
  match L.Node with
  | some (ASTNode.FuncDecl FD) => some FD
  | _ => none

/-- Cast `L.getAsASTNode<ClosureExpr>()`; `none` is the null pointer. -/
def SILLocation.getAsASTNode_ClosureExpr (L : SILLocation) :
    Option DataflowDiagnostics.ClosureExpr :=
  match L.Node with
  | some (ASTNode.ClosureExpr CE) => some CE
  | _ => none

/-- Cast `L.getAsASTNode<GuardStmt>()`; `none` is the null pointer. -/
def SILLocation.getAsASTNode_GuardStmt (L : SILLocation) : Option DataflowDiagnostics.GuardStmt :=
  match L.Node with
  | some (ASTNode.GuardStmt Guard) => some Guard
  | _ => none

/-! ## SIL values, instructions, blocks and functions -/

/-- A `BuiltinValueKind`, the `ID` of a `BuiltinInfo`. -/
inductive BuiltinValueKind where
  | StaticReport
  | Other (N : Nat)
  deriving DecidableEq, Repr

/-- An `APInt`, the value of an integer literal: a bit width and the bits,
which are read modulo `2 ^ BitWidth`. -/
structure APInt where
  BitWidth : Nat
  Bits : Nat
  deriving DecidableEq, Repr

/-- The `APInt` of width `BitWidth` holding the integer `N`, in two's
complement: what `integer_literal $Builtin.Int<BitWidth>, N` carries. -/
def APInt.ofInt (BitWidth : Nat) (N : Int) : APInt :=
  ⟨BitWidth, (N % (2 : Int) ^ BitWidth).toNat⟩

/-- Accessor `getZExtValue()`: the bits read as an unsigned number. -/
def APInt.getZExtValue (V : APInt) : Nat := V.Bits % 2 ^ V.BitWidth

/-- Accessor `getSExtValue()`: the bits read as a signed number, negative when
the top bit is set. -/
def APInt.getSExtValue (V : APInt) : Int :=
  if 2 ^ V.BitWidth ≤ 2 * V.getZExtValue then (V.getZExtValue : Int) - (2 : Int) ^ V.BitWidth
  else (V.getZExtValue : Int)

/-- The comparison `V != Val` of an `APInt` with an unsigned machine integer,
as on line 110: `Val` is zero-extended, so the bits are compared as an unsigned
number. -/
def APInt.ne (V : APInt) (Val : Nat) : Bool := V.getZExtValue != Val

/-- An operand of a builtin call, by what `dyn_cast<IntegerLiteralInst>` finds:
an integer literal with its value `getValue()`, or any other value. -/
inductive SILValue where
  | IntegerLiteralInst (Value : APInt)
  | Other
  deriving DecidableEq, Repr

/-- An `UnreachableInst`, read through `getLoc()`. -/
structure UnreachableInst where
  Loc : SILLocation
  deriving DecidableEq, Repr

/-- A `BuiltinInst`, read through `getLoc()`, `getBuiltinInfo().ID` and
`getArguments()`. -/
structure BuiltinInst where
  Loc : SILLocation
  ID : BuiltinValueKind
  Arguments : List SILValue
  deriving DecidableEq, Repr

/-- A `SILInstruction`, by what the two `dyn_cast`s of the pass find. -/
inductive SILInstruction where
  | UnreachableInst (UI : UnreachableInst)
  | BuiltinInst (BI : BuiltinInst)
  | Other (Loc : SILLocation)
  deriving DecidableEq, Repr

/-- Accessor `I->getLoc()`. -/
def SILInstruction.getLoc : SILInstruction → SILLocation
  | .UnreachableInst UI => UI.Loc
  | .BuiltinInst BI => BI.Loc
  | .Other Loc => Loc

/-- A `SILBasicBlock`: its instructions in block order. -/
structure SILBasicBlock where
  Insts : List SILInstruction
  deriving DecidableEq, Repr

/-- A `SILFunction`: its location, the answer of `isNoReturnFunction()`, and
its basic blocks in stored order. -/
structure SILFunction where
  Location : SILLocation
  NoReturn : Bool
  Blocks : List SILBasicBlock
  deriving DecidableEq, Repr

/-- Accessor `F->getLocation()`. -/
def SILFunction.getLocation (F : SILFunction) : SILLocation := F.Location

/-- Accessor `F->isNoReturnFunction()`. -/
def SILFunction.isNoReturnFunction (F : SILFunction) : Bool := F.NoReturn

/-! ## Executions -/

/-- Why the pass stopped before returning. -/
inductive Fatal where
  /-- Line 46, `llvm_unreachable` with the text "unhandled case in MissingReturn". -/
  | unhandledCaseInMissingReturn
  /-- Line 50, `assert(L && ResTy)` failed. -/
  | assertLAndResTy
  /-- Line 109, `Args[0]` on an empty argument list. -/
  | argsIndexOutOfRange
  deriving DecidableEq, Repr

/-- The result of running a piece of the pass: it returned, or it aborted;
either way with the context (and so the diagnostics emitted) reached. -/
inductive Exec where
  | returned (Context : ASTContext)
  | aborted (Why : Fatal) (Context : ASTContext)
  deriving DecidableEq, Repr

/-- The context an execution ended in. -/
def Exec.Context : Exec → ASTContext
  | .returned Context => Context
  | .aborted _ Context => Context

/-- The diagnostics the engine holds at the end of an execution. -/
def Exec.Emitted (E : Exec) : List Diagnostic := E.Context.Diags.Emitted

/-- Whether an execution aborted. -/
def Exec.isAborted : Exec → Bool
  | .returned _ => false
  | .aborted _ _ => true

/-- Sequencing of statements: the second runs only if the first returned. -/
def Exec.andThen (E : Exec) (K : ASTContext → Exec) : Exec :=
  match E with
  | .returned Context => K Context
  | .aborted Why Context => .aborted Why Context

/-! ## The pass -/

/-- Lines 33-57. `F` is `UI->getParent()->getParent()`, the function the
instruction is in. -/
def diagnoseMissingReturn (UI : UnreachableInst) (F : SILFunction) (Context : ASTContext) :
    Exec :=
  let FLoc := F.getLocation
  let ResTy : Option Ty :=
    match FLoc.getAsASTNode_FuncDecl with
    | some FD => some FD.ResultInterfaceType
    | none =>
      match FLoc.getAsASTNode_ClosureExpr with
      | some CE => some CE.ResultType
      | none => none
  match ResTy with
  | none => .aborted .unhandledCaseInMissingReturn Context
  | some ResTy =>
    let L := UI.Loc
    if L.isNull || ResTy.isNone then .aborted .assertLAndResTy Context
    else
      let diagID := if F.isNoReturnFunction then DiagID.missing_never_call
                    else DiagID.missing_return
      .returned (diagnose Context L.getEndSourceLoc diagID
        [.type ResTy, .unsigned (if FLoc.isASTNode_ClosureExpr then 1 else 0)])

/-- Lines 60-96. `F` is the function the instruction is in. -/
def diagnoseUnreachable (I : SILInstruction) (F : SILFunction) (Context : ASTContext) : Exec :=
  match I with
  | .UnreachableInst UI =>
    let L := UI.Loc
    if L.isNull || L.isMandatoryInlinedLocation then .returned Context
    else if L.isASTNode_AbstractFunctionDecl || L.isASTNode_ClosureExpr then
      diagnoseMissingReturn UI F Context
    else if L.isASTNode_SwitchStmt then
      .returned (diagnose Context L.getEndSourceLoc .non_exhaustive_switch [])
    else
      match L.getAsASTNode_GuardStmt with
      | some Guard =>
        .returned (diagnose Context Guard.Body.EndLoc .guard_body_must_not_fallthrough [])
      | none => .returned Context
  | _ => .returned Context

/-- Lines 99-117. -/
def diagnoseStaticReports (I : SILInstruction) (M : SILModule) : Exec :=
  match I with
  | .BuiltinInst BI =>
    if BI.ID = BuiltinValueKind.StaticReport then
      match BI.Arguments with
      | [] => .aborted .argsIndexOutOfRange M.getASTContext
      | Args0 :: _ =>
        match Args0 with
        | .IntegerLiteralInst Value =>
          if Value.ne 1 then .returned M.getASTContext
          else .returned (diagnose M.getASTContext I.getLoc.getSourceLoc .static_report_error [])
        | .Other => .returned M.getASTContext
    else .returned M.getASTContext
  | _ => .returned M.getASTContext

/-- The body of the inner loop of `run`, lines 130-131, on one instruction. -/
def runInst (F : SILFunction) (I : SILInstruction) (Context : ASTContext) : Exec :=
  (diagnoseUnreachable I F Context).andThen fun Context1 =>
    diagnoseStaticReports I ⟨Context1⟩

/-- The inner loop of `run`, line 129: the instructions of one block, in block
order. -/
def runInsts (F : SILFunction) : List SILInstruction → ASTContext → Exec
  | [], Context => .returned Context
  | I :: Rest, Context => (runInst F I Context).andThen (runInsts F Rest)

/-- The outer loop of `run`, line 128: the blocks in stored order. -/
def runBlocks (F : SILFunction) : List SILBasicBlock → ASTContext → Exec
  | [], Context => .returned Context
  | BB :: Rest, Context => (runInsts F BB.Insts Context).andThen (runBlocks F Rest)

/-- Lines 126-133, `EmitDFDiagnostics::run`, on the function `F` of module `M`. -/
def run (F : SILFunction) (M : SILModule) : Exec :=
  runBlocks F F.Blocks M.getASTContext

/-! ## What one instruction, and one run, contribute -/

/-- The context in which nothing has been diagnosed yet. -/
def emptyContext : ASTContext := ⟨⟨[]⟩⟩

/-- The same execution, had the engine already held `Before` at its start. -/
def Exec.prepend (Before : List Diagnostic) : Exec → Exec
  | .returned Context => .returned ⟨⟨Before ++ Context.Diags.Emitted⟩⟩
  | .aborted Why Context => .aborted Why ⟨⟨Before ++ Context.Diags.Emitted⟩⟩

/-- The diagnostics produced for the single instruction `I` of `F`: what the
two calls of the loop body emit when run on `I` with an empty engine. -/
def instDiagnostics (F : SILFunction) (I : SILInstruction) : List Diagnostic :=
  (runInst F I emptyContext).Emitted

/-- The traversal order of the specification: the per-instruction diagnostics,
concatenated over the blocks in stored order and, within a block, over the
instructions in block order. -/
def traversalDiagnostics (F : SILFunction) : List Diagnostic :=
  F.Blocks.flatMap fun BB => BB.Insts.flatMap (instDiagnostics F)

/-- The diagnostics one run of the pass on `F` emits into an empty engine. -/
def runDiagnostics (F : SILFunction) : List Diagnostic :=
  (run F ⟨emptyContext⟩).Emitted

/-- A piece of the pass only appends to the engine: started with `A ++ B` in
the engine it does what it does started with `B`, with `A` in front. -/
def Framed (K : ASTContext → Exec) : Prop :=
  ∀ A B : List Diagnostic, K ⟨⟨A ++ B⟩⟩ = (K ⟨⟨B⟩⟩).prepend A

/-- The declared result type of the function or closure declaration that a
location references: `getResultInterfaceType()` of a `FuncDecl`,
`getResultType()` of a `ClosureExpr`, and `none` when the location references
neither. -/
def SILLocation.declaredResultType (L : SILLocation) : Option Ty :=
  match L.Node with
  | some (ASTNode.FuncDecl FD) => some FD.ResultInterfaceType
  | some (ASTNode.ClosureExpr CE) => some CE.ResultType
  | _ => none

/-- Whether `dyn_cast<UnreachableInst>(I)` succeeds. -/
def SILInstruction.isUnreachableInst : SILInstruction → Bool
  | .UnreachableInst _ => true
  | _ => false

/-- Whether `I` is a `BuiltinInst` whose builtin is `StaticReport`. -/
def SILInstruction.isStaticReportCall : SILInstruction → Bool
  | .BuiltinInst BI => decide (BI.ID = BuiltinValueKind.StaticReport)
  | _ => false

/-- The number of instructions of a function, over all its blocks. -/
def SILFunction.numInsts (F : SILFunction) : Nat :=
  (F.Blocks.map fun BB => BB.Insts.length).sum

/-! ## Concrete inputs -/

/-- A valid, not inlined location on a constructor declaration, ending at 20. -/
def ctorLoc : SILLocation := ⟨false, false, some ASTNode.ConstructorDecl, 10, 20⟩

/-- A constructor that may return, whose only instruction is an `unreachable`
located at the constructor itself. -/
def ctorFn : SILFunction := ⟨ctorLoc, false, [⟨[.UnreachableInst ⟨ctorLoc⟩]⟩]⟩

/-- The same constructor, marked as never returning. -/
def ctorNeverFn : SILFunction := ⟨ctorLoc, true, [⟨[.UnreachableInst ⟨ctorLoc⟩]⟩]⟩

/-- A valid, not inlined location on a `FuncDecl` with result type 7, ending at 42. -/
def funcLoc : SILLocation := ⟨false, false, some (ASTNode.FuncDecl ⟨some 7⟩), 30, 42⟩

/-- A valid, not inlined location on a closure with result type 9, ending at 58. -/
def closureLoc : SILLocation := ⟨false, false, some (ASTNode.ClosureExpr ⟨some 9⟩), 50, 58⟩

/-- A valid location on a `FuncDecl`, copied in by mandatory inlining. -/
def inlinedFuncLoc : SILLocation := ⟨false, true, some (ASTNode.FuncDecl ⟨some 7⟩), 30, 42⟩

/-- A valid, not inlined location on a `switch`, ending at 77. -/
def switchLoc : SILLocation := ⟨false, false, some ASTNode.SwitchStmt, 60, 77⟩

/-- A valid, not inlined location on a `guard` whose statement ends at 95 and
whose body ends at 93. -/
def guardLoc : SILLocation := ⟨false, false, some (ASTNode.GuardStmt ⟨⟨93⟩⟩), 80, 95⟩

/-- A function that may return, located at `funcLoc`, with no blocks. -/
def funcFn : SILFunction := ⟨funcLoc, false, []⟩

/-- A closure that never returns, located at `closureLoc`, with no blocks. -/
def closureNeverFn : SILFunction := ⟨closureLoc, true, []⟩

/-- A valid location that holds no AST node, at source position 5. -/
def callLoc : SILLocation := ⟨false, false, none, 5, 6⟩

/-- The call `Builtin.staticReport(1, <other>, <other>)` at `callLoc`, its first
operand being the 32-bit literal 1. -/
def reportOne : BuiltinInst :=
  ⟨callLoc, .StaticReport, [.IntegerLiteralInst (APInt.ofInt 32 1), .Other, .Other]⟩

/-- The call `Builtin.staticReport(-1, <other>)` at `callLoc`, its first operand
being the 1-bit literal -1: the true value of `Builtin.Int1`. -/
def reportMinusOne : BuiltinInst :=
  ⟨callLoc, .StaticReport, [.IntegerLiteralInst (APInt.ofInt 1 (-1)), .Other]⟩

/-- The call `Builtin.staticReport(0, <other>)` at `callLoc`, its first operand
being the 1-bit literal 0: the false value of `Builtin.Int1`. -/
def reportZero : BuiltinInst :=
  ⟨callLoc, .StaticReport, [.IntegerLiteralInst (APInt.ofInt 1 0), .Other]⟩

/-- The call `Builtin.staticReport(-1, <other>)` at `callLoc`, its first operand
being the 8-bit literal -1. -/
def reportMinusOneWide : BuiltinInst :=
  ⟨callLoc, .StaticReport, [.IntegerLiteralInst (APInt.ofInt 8 (-1)), .Other]⟩

/-- A function located at `funcLoc` with two blocks: a failing static report
(position 5) then a non-exhaustive switch (end 77); and the same static report
again then a falling-through guard (body end 93). -/
def twoBlockFn : SILFunction :=
  ⟨funcLoc, false,
    [⟨[.Other callLoc, .BuiltinInst reportOne, .UnreachableInst ⟨switchLoc⟩]⟩,
     ⟨[.BuiltinInst reportOne, .UnreachableInst ⟨guardLoc⟩]⟩]⟩

/-- A valid, not inlined location on a `FuncDecl` whose result type is null. -/
def nullTyLoc : SILLocation := ⟨false, false, some (ASTNode.FuncDecl ⟨none⟩), 30, 42⟩

/-- A function that may return, located at `nullTyLoc`. -/
def nullTyFn : SILFunction := ⟨nullTyLoc, false, [⟨[.UnreachableInst ⟨nullTyLoc⟩]⟩]⟩

/-- The same function, marked as never returning. -/
def nullTyNeverFn : SILFunction := ⟨nullTyLoc, true, [⟨[.UnreachableInst ⟨nullTyLoc⟩]⟩]⟩

/-- A valid, not inlined location on a node of no class the pass knows. -/
def otherLoc : SILLocation := ⟨false, false, some ASTNode.Other, 100, 110⟩

/-- A call of a builtin other than `StaticReport`, with first operand the
32-bit literal 1. -/
def otherBuiltinOne : BuiltinInst :=
  ⟨callLoc, .Other 3, [.IntegerLiteralInst (APInt.ofInt 32 1), .Other]⟩

/-- A valid, not inlined location on a destructor declaration, ending at 25. -/
def dtorLoc : SILLocation := ⟨false, false, some ASTNode.DestructorDecl, 21, 25⟩

/-- A destructor whose only instruction is an `unreachable` located at the
destructor itself. -/
def dtorFn : SILFunction := ⟨dtorLoc, false, [⟨[.UnreachableInst ⟨dtorLoc⟩]⟩]⟩

/-- A function located at `funcLoc` with no `unreachable` and no static-report
call: two plain instructions and a call of another builtin. -/
def quietFn : SILFunction :=
  ⟨funcLoc, false, [⟨[.Other callLoc, .BuiltinInst otherBuiltinOne]⟩, ⟨[.Other otherLoc]⟩]⟩

/-! ## Helper lemmas -/

theorem APInt.getZExtValue_ofInt_one (BitWidth : Nat) (h : 0 < BitWidth) :
    (APInt.ofInt BitWidth 1).getZExtValue = 1 := by
  have hNat : 1 < 2 ^ BitWidth := Nat.one_lt_two_pow (Nat.pos_iff_ne_zero.mp h)
  have hInt : (1 : Int) < (2 : Int) ^ BitWidth := by exact_mod_cast hNat
  have hMod : (1 : Int) % (2 : Int) ^ BitWidth = 1 := Int.emod_eq_of_lt (by decide) hInt
  unfold APInt.getZExtValue APInt.ofInt
  simp only [hMod]
  exact Nat.mod_eq_of_lt hNat

theorem not_function_body_of_switch (L : SILLocation) (h : L.isASTNode_SwitchStmt = true) :
    L.isASTNode_AbstractFunctionDecl = false ∧ L.isASTNode_ClosureExpr = false := by
  unfold SILLocation.isASTNode_SwitchStmt at h
  unfold SILLocation.isASTNode_AbstractFunctionDecl SILLocation.isASTNode_ClosureExpr
  cases hN : L.Node with
  | none => simp
  | some N => cases N <;> simp_all

theorem not_function_body_of_guard (L : SILLocation) (Guard : GuardStmt)
    (h : L.getAsASTNode_GuardStmt = some Guard) :
    L.isASTNode_AbstractFunctionDecl = false ∧ L.isASTNode_ClosureExpr = false ∧
      L.isASTNode_SwitchStmt = false := by
  unfold SILLocation.getAsASTNode_GuardStmt at h
  unfold SILLocation.isASTNode_AbstractFunctionDecl SILLocation.isASTNode_ClosureExpr
    SILLocation.isASTNode_SwitchStmt
  cases hN : L.Node with
  | none => simp
  | some N => cases N <;> simp_all

theorem Exec.prepend_Emitted (A : List Diagnostic) (E : Exec) :
    (E.prepend A).Emitted = A ++ E.Emitted := by
  cases E <;> rfl

theorem Exec.prepend_isAborted (A : List Diagnostic) (E : Exec) :
    (E.prepend A).isAborted = E.isAborted := by
  cases E <;> rfl

theorem Framed.apply {K : ASTContext → Exec} (hK : Framed K) (Context : ASTContext) :
    K Context = (K emptyContext).prepend Context.Diags.Emitted := by
  have h := hK Context.Diags.Emitted []
  simpa [emptyContext] using h

theorem Framed.andThen {K1 K2 : ASTContext → Exec} (h1 : Framed K1) (h2 : Framed K2) :
    Framed fun Context => (K1 Context).andThen K2 := by
  intro A B
  show (K1 ⟨⟨A ++ B⟩⟩).andThen K2 = ((K1 ⟨⟨B⟩⟩).andThen K2).prepend A
  rw [h1 A B]
  cases K1 ⟨⟨B⟩⟩ with
  | returned Context => exact h2 A Context.Diags.Emitted
  | aborted Why Context => rfl

theorem diagnoseMissingReturn_framed (UI : UnreachableInst) (F : SILFunction) :
    Framed (diagnoseMissingReturn UI F) := by
  intro A B
  unfold diagnoseMissingReturn
  simp only []
  split
  · rfl
  · split <;> simp [Exec.prepend, diagnose, DiagnosticEngine.diagnose]

theorem diagnoseUnreachable_framed (I : SILInstruction) (F : SILFunction) :
    Framed (diagnoseUnreachable I F) := by
  intro A B
  cases I with
  | UnreachableInst UI =>
    unfold diagnoseUnreachable
    simp only []
    split
    · simp [Exec.prepend]
    · split
      · exact diagnoseMissingReturn_framed UI F A B
      · split
        · simp [Exec.prepend, diagnose, DiagnosticEngine.diagnose]
        · split <;> simp [Exec.prepend, diagnose, DiagnosticEngine.diagnose]
  | BuiltinInst BI => simp [diagnoseUnreachable, Exec.prepend]
  | Other Loc => simp [diagnoseUnreachable, Exec.prepend]

theorem diagnoseStaticReports_framed (I : SILInstruction) :
    Framed fun Context => diagnoseStaticReports I ⟨Context⟩ := by
  intro A B
  cases I with
  | UnreachableInst UI => simp [diagnoseStaticReports, Exec.prepend, SILModule.getASTContext]
  | Other Loc => simp [diagnoseStaticReports, Exec.prepend, SILModule.getASTContext]
  | BuiltinInst BI =>
    simp only [diagnoseStaticReports, SILModule.getASTContext]
    split
    · split
      · simp [Exec.prepend]
      · split
        · split <;> simp [Exec.prepend, diagnose, DiagnosticEngine.diagnose]
        · simp [Exec.prepend]
    · simp [Exec.prepend]

theorem runInst_framed (F : SILFunction) (I : SILInstruction) : Framed (runInst F I) :=
  Framed.andThen (diagnoseUnreachable_framed I F) (diagnoseStaticReports_framed I)

theorem runInsts_framed (F : SILFunction) (Insts : List SILInstruction) :
    Framed (runInsts F Insts) := by
  induction Insts with
  | nil => intro A B; rfl
  | cons I Rest ih => exact Framed.andThen (runInst_framed F I) ih

theorem runBlocks_framed (F : SILFunction) (Blocks : List SILBasicBlock) :
    Framed (runBlocks F Blocks) := by
  induction Blocks with
  | nil => intro A B; rfl
  | cons BB Rest ih => exact Framed.andThen (runInsts_framed F BB.Insts) ih

theorem run_eq_prepend (F : SILFunction) (M : SILModule) :
    run F M = (run F ⟨emptyContext⟩).prepend M.getASTContext.Diags.Emitted :=
  (runBlocks_framed F F.Blocks).apply M.getASTContext

theorem runInst_returned (F : SILFunction) (I : SILInstruction) (Context Context1 : ASTContext)
    (h : runInst F I Context = .returned Context1) :
    Context1.Diags.Emitted = Context.Diags.Emitted ++ instDiagnostics F I := by
  have hE : (runInst F I Context).Emitted = Context1.Diags.Emitted := by rw [h]; rfl
  rw [← hE, (runInst_framed F I).apply Context, Exec.prepend_Emitted]
  rfl

theorem runInsts_returned (F : SILFunction) (Insts : List SILInstruction) :
    ∀ Context Context1 : ASTContext, runInsts F Insts Context = .returned Context1 →
      Context1.Diags.Emitted = Context.Diags.Emitted ++ Insts.flatMap (instDiagnostics F) := by
  induction Insts with
  | nil =>
    intro Context Context1 h
    simp only [runInsts, Exec.returned.injEq] at h
    simp [h]
  | cons I Rest ih =>
    intro Context Context1 h
    simp only [runInsts] at h
    cases hI : runInst F I Context with
    | aborted Why Context2 => rw [hI] at h; simp [Exec.andThen] at h
    | returned Context2 =>
      rw [hI] at h
      simp only [Exec.andThen] at h
      rw [ih Context2 Context1 h, runInst_returned F I Context Context2 hI]
      simp [List.flatMap_cons]

theorem runBlocks_returned (F : SILFunction) (Blocks : List SILBasicBlock) :
    ∀ Context Context1 : ASTContext, runBlocks F Blocks Context = .returned Context1 →
      Context1.Diags.Emitted = Context.Diags.Emitted ++
        Blocks.flatMap fun BB => BB.Insts.flatMap (instDiagnostics F) := by
  induction Blocks with
  | nil =>
    intro Context Context1 h
    simp only [runBlocks, Exec.returned.injEq] at h
    simp [h]
  | cons BB Rest ih =>
    intro Context Context1 h
    simp only [runBlocks] at h
    cases hB : runInsts F BB.Insts Context with
    | aborted Why Context2 => rw [hB] at h; simp [Exec.andThen] at h
    | returned Context2 =>
      rw [hB] at h
      simp only [Exec.andThen] at h
      rw [ih Context2 Context1 h, runInsts_returned F BB.Insts Context Context2 hB]
      simp [List.flatMap_cons]

theorem diagnoseMissingReturn_eq (UI : UnreachableInst) (F : SILFunction)
    (Context : ASTContext) :
    diagnoseMissingReturn UI F Context =
      match F.getLocation.declaredResultType with
      | none => .aborted .unhandledCaseInMissingReturn Context
      | some ResTy =>
        if UI.Loc.isNull || ResTy.isNone then .aborted .assertLAndResTy Context
        else .returned (diagnose Context UI.Loc.getEndSourceLoc
          (if F.isNoReturnFunction then DiagID.missing_never_call else DiagID.missing_return)
          [.type ResTy, .unsigned (if F.getLocation.isASTNode_ClosureExpr then 1 else 0)]) := by
  cases hN : F.getLocation.Node with
  | none =>
    simp [diagnoseMissingReturn, SILLocation.declaredResultType,
      SILLocation.getAsASTNode_FuncDecl, SILLocation.getAsASTNode_ClosureExpr, hN]
  | some N =>
    cases N <;>
      simp [diagnoseMissingReturn, SILLocation.declaredResultType,
        SILLocation.getAsASTNode_FuncDecl, SILLocation.getAsASTNode_ClosureExpr, hN]

theorem diagnoseUnreachable_body (UI : UnreachableInst) (F : SILFunction)
    (Context : ASTContext)
    (hValid : UI.Loc.isNull = false)
    (hInlined : UI.Loc.isMandatoryInlinedLocation = false)
    (hBody : UI.Loc.isASTNode_AbstractFunctionDecl = true ∨ UI.Loc.isASTNode_ClosureExpr = true) :
    diagnoseUnreachable (.UnreachableInst UI) F Context = diagnoseMissingReturn UI F Context := by
  have hB : (UI.Loc.isASTNode_AbstractFunctionDecl || UI.Loc.isASTNode_ClosureExpr) = true := by
    rcases hBody with h | h <;> simp [h]
  simp [diagnoseUnreachable, hValid, hInlined, hB]

theorem Exec.andThen_assoc (E : Exec) (K1 K2 : ASTContext → Exec) :
    (E.andThen K1).andThen K2 = E.andThen fun Context => (K1 Context).andThen K2 := by
  cases E <;> rfl

theorem runInsts_append (F : SILFunction) (X Y : List SILInstruction) :
    ∀ Context : ASTContext,
      runInsts F (X ++ Y) Context = (runInsts F X Context).andThen (runInsts F Y) := by
  induction X with
  | nil => intro Context; rfl
  | cons I Rest ih =>
    intro Context
    show (runInst F I Context).andThen (runInsts F (Rest ++ Y))
      = ((runInst F I Context).andThen (runInsts F Rest)).andThen (runInsts F Y)
    rw [Exec.andThen_assoc]
    congr 1
    funext Context1
    exact ih Context1

theorem runBlocks_append (F : SILFunction) (A B : List SILBasicBlock) :
    ∀ Context : ASTContext,
      runBlocks F (A ++ B) Context = (runBlocks F A Context).andThen (runBlocks F B) := by
  induction A with
  | nil => intro Context; rfl
  | cons BB Rest ih =>
    intro Context
    show (runInsts F BB.Insts Context).andThen (runBlocks F (Rest ++ B))
      = ((runInsts F BB.Insts Context).andThen (runBlocks F Rest)).andThen (runBlocks F B)
    rw [Exec.andThen_assoc]
    congr 1
    funext Context1
    exact ih Context1

theorem Framed.andThen_Emitted {K1 K2 : ASTContext → Exec} (h1 : Framed K1) (h2 : Framed K2)
    (Context : ASTContext) (hOk : ((K1 Context).andThen K2).isAborted = false) :
    ((K1 Context).andThen K2).Emitted
      = Context.Diags.Emitted ++ ((K1 emptyContext).Emitted ++ (K2 emptyContext).Emitted) := by
  rw [h1.apply Context] at hOk ⊢
  cases hE : K1 emptyContext with
  | aborted Why Context1 =>
    rw [hE] at hOk
    simp [Exec.prepend, Exec.andThen, Exec.isAborted] at hOk
  | returned Context1 =>
    simp only [Exec.prepend, Exec.andThen]
    rw [h2.apply, Exec.prepend_Emitted]
    simp [Exec.Emitted, Exec.Context]

theorem runInsts_restrict (F : SILFunction) (A : List SILBasicBlock)
    (Insts : List SILInstruction) :
    ∀ Context : ASTContext,
      runInsts { F with Blocks := A } Insts Context = runInsts F Insts Context := by
  induction Insts with
  | nil => intro Context; rfl
  | cons I Rest ih =>
    intro Context
    show (runInst { F with Blocks := A } I Context).andThen (runInsts { F with Blocks := A } Rest)
      = (runInst F I Context).andThen (runInsts F Rest)
    have hI : runInst { F with Blocks := A } I Context = runInst F I Context := by
      cases I <;> rfl
    rw [hI]
    congr 1
    funext Context1
    exact ih Context1

theorem runBlocks_restrict (F : SILFunction) (A : List SILBasicBlock)
    (Blocks : List SILBasicBlock) :
    ∀ Context : ASTContext,
      runBlocks { F with Blocks := A } Blocks Context = runBlocks F Blocks Context := by
  induction Blocks with
  | nil => intro Context; rfl
  | cons BB Rest ih =>
    intro Context
    show (runInsts { F with Blocks := A } BB.Insts Context).andThen
        (runBlocks { F with Blocks := A } Rest)
      = (runInsts F BB.Insts Context).andThen (runBlocks F Rest)
    rw [runInsts_restrict F A BB.Insts Context]
    congr 1
    funext Context1
    exact ih Context1

theorem runDiagnostics_restrict (F : SILFunction) (A : List SILBasicBlock) :
    runDiagnostics { F with Blocks := A } = (runBlocks F A emptyContext).Emitted := by
  show (runBlocks { F with Blocks := A } A emptyContext).Emitted = _
  rw [runBlocks_restrict F A A emptyContext]

theorem diagnoseMissingReturn_length (UI : UnreachableInst) (F : SILFunction) :
    (diagnoseMissingReturn UI F emptyContext).Emitted.length ≤ 1 := by
  rw [diagnoseMissingReturn_eq]
  split
  · simp [Exec.Emitted, Exec.Context, emptyContext]
  · split <;>
      simp [Exec.Emitted, Exec.Context, emptyContext, diagnose, DiagnosticEngine.diagnose]

theorem diagnoseUnreachable_length (I : SILInstruction) (F : SILFunction) :
    (diagnoseUnreachable I F emptyContext).Emitted.length ≤ 1 := by
  cases I with
  | BuiltinInst BI => simp [diagnoseUnreachable, Exec.Emitted, Exec.Context, emptyContext]
  | Other Loc => simp [diagnoseUnreachable, Exec.Emitted, Exec.Context, emptyContext]
  | UnreachableInst UI =>
    unfold diagnoseUnreachable
    simp only []
    split
    · simp [Exec.Emitted, Exec.Context, emptyContext]
    · split
      · exact diagnoseMissingReturn_length UI F
      · split
        · simp [Exec.Emitted, Exec.Context, emptyContext, diagnose, DiagnosticEngine.diagnose]
        · split <;>
            simp [Exec.Emitted, Exec.Context, emptyContext, diagnose,
              DiagnosticEngine.diagnose]

theorem diagnoseStaticReports_length (I : SILInstruction) :
    (diagnoseStaticReports I ⟨emptyContext⟩).Emitted.length ≤ 1 := by
  cases I with
  | UnreachableInst UI =>
    simp [diagnoseStaticReports, Exec.Emitted, Exec.Context, emptyContext,
      SILModule.getASTContext]
  | Other Loc =>
    simp [diagnoseStaticReports, Exec.Emitted, Exec.Context, emptyContext,
      SILModule.getASTContext]
  | BuiltinInst BI =>
    simp only [diagnoseStaticReports, SILModule.getASTContext]
    split
    · split
      · simp [Exec.Emitted, Exec.Context, emptyContext]
      · split
        · split <;>
            simp [Exec.Emitted, Exec.Context, emptyContext, diagnose,
              DiagnosticEngine.diagnose]
        · simp [Exec.Emitted, Exec.Context, emptyContext]
    · simp [Exec.Emitted, Exec.Context, emptyContext]

theorem instDiagnostics_length (F : SILFunction) (I : SILInstruction) :
    (instDiagnostics F I).length ≤ 1 := by
  cases I with
  | UnreachableInst UI =>
    have h : runInst F (.UnreachableInst UI) emptyContext
        = diagnoseUnreachable (.UnreachableInst UI) F emptyContext := by
      unfold runInst
      cases diagnoseUnreachable (.UnreachableInst UI) F emptyContext <;> rfl
    unfold instDiagnostics
    rw [h]
    exact diagnoseUnreachable_length _ F
  | BuiltinInst BI => exact diagnoseStaticReports_length (.BuiltinInst BI)
  | Other Loc => exact diagnoseStaticReports_length (.Other Loc)

theorem flatMap_instDiagnostics_length (F : SILFunction) (Insts : List SILInstruction) :
    (Insts.flatMap (instDiagnostics F)).length ≤ Insts.length := by
  induction Insts with
  | nil => simp
  | cons I Rest ih =>
    have hI := instDiagnostics_length F I
    simp only [List.flatMap_cons, List.length_append, List.length_cons]
    omega

theorem traversalDiagnostics_length_blocks (F : SILFunction) (Blocks : List SILBasicBlock) :
    (Blocks.flatMap fun BB => BB.Insts.flatMap (instDiagnostics F)).length
      ≤ (Blocks.map fun BB => BB.Insts.length).sum := by
  induction Blocks with
  | nil => simp
  | cons BB Rest ih =>
    have hB := flatMap_instDiagnostics_length F BB.Insts
    simp only [List.flatMap_cons, List.length_append, List.map_cons, List.sum_cons]
    omega

theorem runInst_quiet (F : SILFunction) (I : SILInstruction) (Context : ASTContext)
    (hU : I.isUnreachableInst = false) (hS : I.isStaticReportCall = false) :
    runInst F I Context = .returned Context := by
  cases I with
  | UnreachableInst UI => simp [SILInstruction.isUnreachableInst] at hU
  | Other Loc => rfl
  | BuiltinInst BI =>
    have hID : BI.ID ≠ BuiltinValueKind.StaticReport := by
      simpa [SILInstruction.isStaticReportCall] using hS
    simp [runInst, diagnoseUnreachable, diagnoseStaticReports, Exec.andThen, hID,
      SILModule.getASTContext]

theorem runInsts_quiet (F : SILFunction) (Insts : List SILInstruction) (Context : ASTContext)
    (h : ∀ I ∈ Insts, I.isUnreachableInst = false ∧ I.isStaticReportCall = false) :
    runInsts F Insts Context = .returned Context := by
  induction Insts with
  | nil => rfl
  | cons I Rest ih =>
    have hI := h I (List.mem_cons_self I Rest)
    simp only [runInsts, runInst_quiet F I Context hI.1 hI.2, Exec.andThen]
    exact ih fun J hJ => h J (List.mem_cons_of_mem I hJ)

theorem runBlocks_quiet (F : SILFunction) (Blocks : List SILBasicBlock) (Context : ASTContext)
    (h : ∀ BB ∈ Blocks, ∀ I ∈ BB.Insts,
      I.isUnreachableInst = false ∧ I.isStaticReportCall = false) :
    runBlocks F Blocks Context = .returned Context := by
  induction Blocks with
  | nil => rfl
  | cons BB Rest ih =>
    simp only [runBlocks, runInsts_quiet F BB.Insts Context (h BB (List.mem_cons_self BB Rest)),
      Exec.andThen]
    exact ih fun BB1 hBB1 => h BB1 (List.mem_cons_of_mem BB hBB1)

/-! ## Unreachable terminators -/

/-- C1 (as stated, refuted): a valid, not inlined `unreachable` located at a
constructor declaration, in the constructor itself, which is not marked as
never returning, reaches `llvm_unreachable` in `diagnoseMissingReturn`: no
diagnostic is emitted and the pass aborts. Likewise at a `FuncDecl` whose
result type is null, where `assert(L && ResTy)` fails. -/
theorem C1_counterexample :
    (ctorLoc.isNull = false ∧ ctorLoc.isMandatoryInlinedLocation = false ∧
      ctorLoc.isASTNode_AbstractFunctionDecl = true ∧ ctorFn.isNoReturnFunction = false) ∧
    diagnoseUnreachable (.UnreachableInst ⟨ctorLoc⟩) ctorFn emptyContext
      = .aborted .unhandledCaseInMissingReturn emptyContext ∧
    (diagnoseUnreachable (.UnreachableInst ⟨ctorLoc⟩) ctorFn emptyContext).Emitted = [] ∧
    (nullTyLoc.isNull = false ∧ nullTyLoc.isMandatoryInlinedLocation = false ∧
      nullTyLoc.isASTNode_AbstractFunctionDecl = true ∧ nullTyFn.isNoReturnFunction = false) ∧
    diagnoseUnreachable (.UnreachableInst ⟨nullTyLoc⟩) nullTyFn emptyContext
      = .aborted .assertLAndResTy emptyContext := by
  decide

/-- C1 (amended): for an `unreachable` whose location is valid, not mandatory
inlined and an `AbstractFunctionDecl` or a `ClosureExpr`, in a function that is
not marked as never returning and whose own location is a `FuncDecl` or a
`ClosureExpr` with the non-null result type `T`, `diagnoseUnreachable` returns
having emitted exactly one diagnostic: `missing_return`, at the end location of
the instruction's location, carrying `T` (and the closure flag). -/
theorem C1_missing_return (UI : UnreachableInst) (F : SILFunction) (Context : ASTContext)
    (T : Nat)
    (hValid : UI.Loc.isNull = false)
    (hInlined : UI.Loc.isMandatoryInlinedLocation = false)
    (hBody : UI.Loc.isASTNode_AbstractFunctionDecl = true ∨ UI.Loc.isASTNode_ClosureExpr = true)
    (hReturns : F.isNoReturnFunction = false)
    (hDecl : F.getLocation.Node = some (ASTNode.FuncDecl ⟨some T⟩) ∨
      F.getLocation.Node = some (ASTNode.ClosureExpr ⟨some T⟩)) :
    diagnoseUnreachable (.UnreachableInst UI) F Context
      = .returned ⟨⟨Context.Diags.Emitted ++
          [⟨UI.Loc.getEndSourceLoc, .missing_return,
            [.type (some T),
             .unsigned (if F.getLocation.isASTNode_ClosureExpr then 1 else 0)]⟩]⟩⟩ := by
  have hB : (UI.Loc.isASTNode_AbstractFunctionDecl || UI.Loc.isASTNode_ClosureExpr) = true := by
    rcases hBody with h | h <;> simp [h]
  rcases hDecl with h | h <;>
    simp [diagnoseUnreachable, diagnoseMissingReturn, hValid, hInlined, hB, hReturns,
      SILLocation.getAsASTNode_FuncDecl, SILLocation.getAsASTNode_ClosureExpr, h, diagnose,
      DiagnosticEngine.diagnose]

/-- C1 (amended), at a function `funcFn` located at a `FuncDecl` of result type 7. -/
theorem C1_missing_return_witness :
    diagnoseUnreachable (.UnreachableInst ⟨funcLoc⟩) funcFn emptyContext
      = .returned ⟨⟨[⟨42, .missing_return, [.type (some 7), .unsigned 0]⟩]⟩⟩ :=
  C1_missing_return ⟨funcLoc⟩ funcFn emptyContext 7 rfl rfl (Or.inl rfl) rfl (Or.inl rfl)

/-- C2 (as stated, refuted): a valid, not inlined `unreachable` located at a
constructor declaration, in the constructor itself, which is marked as never
returning, reaches `llvm_unreachable` in `diagnoseMissingReturn`: no
`missing_never_call` diagnostic is emitted and the pass aborts. Likewise at a
`FuncDecl` whose result type is null, where `assert(L && ResTy)` fails. -/
theorem C2_counterexample :
    (ctorLoc.isNull = false ∧ ctorLoc.isMandatoryInlinedLocation = false ∧
      ctorLoc.isASTNode_AbstractFunctionDecl = true ∧ ctorNeverFn.isNoReturnFunction = true) ∧
    diagnoseUnreachable (.UnreachableInst ⟨ctorLoc⟩) ctorNeverFn emptyContext
      = .aborted .unhandledCaseInMissingReturn emptyContext ∧
    (diagnoseUnreachable (.UnreachableInst ⟨ctorLoc⟩) ctorNeverFn emptyContext).Emitted = [] ∧
    (nullTyLoc.isNull = false ∧ nullTyLoc.isMandatoryInlinedLocation = false ∧
      nullTyLoc.isASTNode_AbstractFunctionDecl = true ∧
      nullTyNeverFn.isNoReturnFunction = true) ∧
    diagnoseUnreachable (.UnreachableInst ⟨nullTyLoc⟩) nullTyNeverFn emptyContext
      = .aborted .assertLAndResTy emptyContext := by
  decide

/-- C2 (amended): for an `unreachable` whose location is valid, not mandatory
inlined and an `AbstractFunctionDecl` or a `ClosureExpr`, in a function that is
marked as never returning and whose own location is a `FuncDecl` or a
`ClosureExpr` with the non-null result type `T`, `diagnoseUnreachable` returns
having emitted exactly one diagnostic, which is `missing_never_call` and so not
`missing_return`. -/
theorem C2_missing_never_call (UI : UnreachableInst) (F : SILFunction) (Context : ASTContext)
    (T : Nat)
    (hValid : UI.Loc.isNull = false)
    (hInlined : UI.Loc.isMandatoryInlinedLocation = false)
    (hBody : UI.Loc.isASTNode_AbstractFunctionDecl = true ∨ UI.Loc.isASTNode_ClosureExpr = true)
    (hNever : F.isNoReturnFunction = true)
    (hDecl : F.getLocation.Node = some (ASTNode.FuncDecl ⟨some T⟩) ∨
      F.getLocation.Node = some (ASTNode.ClosureExpr ⟨some T⟩)) :
    diagnoseUnreachable (.UnreachableInst UI) F Context
      = .returned ⟨⟨Context.Diags.Emitted ++
          [⟨UI.Loc.getEndSourceLoc, .missing_never_call,
            [.type (some T),
             .unsigned (if F.getLocation.isASTNode_ClosureExpr then 1 else 0)]⟩]⟩⟩ := by
  have hB : (UI.Loc.isASTNode_AbstractFunctionDecl || UI.Loc.isASTNode_ClosureExpr) = true := by
    rcases hBody with h | h <;> simp [h]
  rcases hDecl with h | h <;>
    simp [diagnoseUnreachable, diagnoseMissingReturn, hValid, hInlined, hB, hNever,
      SILLocation.getAsASTNode_FuncDecl, SILLocation.getAsASTNode_ClosureExpr, h, diagnose,
      DiagnosticEngine.diagnose]

/-- C2 (amended), at a never-returning closure `closureNeverFn` of result type 9. -/
theorem C2_missing_never_call_witness :
    diagnoseUnreachable (.UnreachableInst ⟨closureLoc⟩) closureNeverFn emptyContext
      = .returned ⟨⟨[⟨58, .missing_never_call, [.type (some 9), .unsigned 1]⟩]⟩⟩ :=
  C2_missing_never_call ⟨closureLoc⟩ closureNeverFn emptyContext 9 rfl rfl (Or.inr rfl) rfl
    (Or.inr rfl)

/-- C3: for an `unreachable` whose location is null or is a mandatory-inlined
location, `diagnoseUnreachable` returns (it does not abort) with the context
unchanged, so with no diagnostic emitted, whatever node the location holds and
whatever the enclosing function is. -/
theorem C3_absent_or_inlined_silent (UI : UnreachableInst) (F : SILFunction)
    (Context : ASTContext)
    (h : UI.Loc.isNull = true ∨ UI.Loc.isMandatoryInlinedLocation = true) :
    diagnoseUnreachable (.UnreachableInst UI) F Context = .returned Context := by
  have hB : (UI.Loc.isNull || UI.Loc.isMandatoryInlinedLocation) = true := by
    rcases h with h | h <;> simp [h]
  simp [diagnoseUnreachable, hB]

/-- C3, at a mandatory-inlined location on a `FuncDecl` inside a constructor:
nothing is emitted and nothing aborts, although the same instruction without
the inlining mark would reach `diagnoseMissingReturn`. -/
theorem C3_absent_or_inlined_silent_witness :
    diagnoseUnreachable (.UnreachableInst ⟨inlinedFuncLoc⟩) ctorFn emptyContext
      = .returned emptyContext :=
  C3_absent_or_inlined_silent ⟨inlinedFuncLoc⟩ ctorFn emptyContext (Or.inr rfl)

/-- C4: for an `unreachable` whose location is valid, not mandatory inlined and
a `SwitchStmt`, `diagnoseUnreachable` returns having emitted exactly one
diagnostic: `non_exhaustive_switch`, at the end location of the switch. -/
theorem C4_non_exhaustive_switch (UI : UnreachableInst) (F : SILFunction)
    (Context : ASTContext)
    (hValid : UI.Loc.isNull = false)
    (hInlined : UI.Loc.isMandatoryInlinedLocation = false)
    (hSwitch : UI.Loc.isASTNode_SwitchStmt = true) :
    diagnoseUnreachable (.UnreachableInst UI) F Context
      = .returned ⟨⟨Context.Diags.Emitted ++
          [⟨UI.Loc.getEndSourceLoc, .non_exhaustive_switch, []⟩]⟩⟩ := by
  obtain ⟨h1, h2⟩ := not_function_body_of_switch UI.Loc hSwitch
  simp [diagnoseUnreachable, hValid, hInlined, h1, h2, hSwitch, diagnose,
    DiagnosticEngine.diagnose]

/-- C4, at a `switch` ending at 77 inside a constructor. -/
theorem C4_non_exhaustive_switch_witness :
    diagnoseUnreachable (.UnreachableInst ⟨switchLoc⟩) ctorFn emptyContext
      = .returned ⟨⟨[⟨77, .non_exhaustive_switch, []⟩]⟩⟩ :=
  C4_non_exhaustive_switch ⟨switchLoc⟩ ctorFn emptyContext rfl rfl rfl

/-- C5: for an `unreachable` whose location is valid, not mandatory inlined and
a `GuardStmt`, `diagnoseUnreachable` returns having emitted exactly one
diagnostic: `guard_body_must_not_fallthrough`, at the end location of the
guard's body, whatever the end location of the guard's own location is. -/
theorem C5_guard_fallthrough (UI : UnreachableInst) (F : SILFunction) (Context : ASTContext)
    (Guard : GuardStmt)
    (hValid : UI.Loc.isNull = false)
    (hInlined : UI.Loc.isMandatoryInlinedLocation = false)
    (hGuard : UI.Loc.getAsASTNode_GuardStmt = some Guard) :
    diagnoseUnreachable (.UnreachableInst UI) F Context
      = .returned ⟨⟨Context.Diags.Emitted ++
          [⟨Guard.Body.EndLoc, .guard_body_must_not_fallthrough, []⟩]⟩⟩ := by
  obtain ⟨h1, h2, h3⟩ := not_function_body_of_guard UI.Loc Guard hGuard
  simp [diagnoseUnreachable, hValid, hInlined, h1, h2, h3, hGuard, diagnose,
    DiagnosticEngine.diagnose]

/-- C5, at a `guard` whose location ends at 95 and whose body ends at 93: the
diagnostic is at 93. -/
theorem C5_guard_fallthrough_witness :
    guardLoc.getEndSourceLoc = 95 ∧
    diagnoseUnreachable (.UnreachableInst ⟨guardLoc⟩) ctorFn emptyContext
      = .returned ⟨⟨[⟨93, .guard_body_must_not_fallthrough, []⟩]⟩⟩ :=
  ⟨rfl, C5_guard_fallthrough ⟨guardLoc⟩ ctorFn emptyContext ⟨⟨93⟩⟩ rfl rfl rfl⟩

/-! ## Static reports -/

/-- C6: for a call of the `StaticReport` builtin whose first operand is an
integer literal of value 1 (its bits, read as an unsigned number, are 1, as for
the literal 1 of any width), `diagnoseStaticReports` returns having emitted
exactly one diagnostic: `static_report_error`, at the source location of the
call's own location, whatever the remaining operands are. -/
theorem C6_static_report_error (BI : BuiltinInst) (M : SILModule) (Value : APInt)
    (Rest : List SILValue)
    (hID : BI.ID = BuiltinValueKind.StaticReport)
    (hArgs : BI.Arguments = SILValue.IntegerLiteralInst Value :: Rest)
    (hOne : Value.getZExtValue = 1) :
    diagnoseStaticReports (.BuiltinInst BI) M
      = .returned ⟨⟨M.getASTContext.Diags.Emitted ++
          [⟨BI.Loc.getSourceLoc, .static_report_error, []⟩]⟩⟩ := by
  simp [diagnoseStaticReports, hID, hArgs, APInt.ne, hOne, diagnose, DiagnosticEngine.diagnose,
    SILInstruction.getLoc]

/-- C6, at `Builtin.staticReport(1, ..)` located at source position 5, whose
first operand is the 32-bit literal 1. -/
theorem C6_static_report_error_witness :
    (APInt.ofInt 32 1).getSExtValue = 1 ∧
    diagnoseStaticReports (.BuiltinInst reportOne) ⟨emptyContext⟩
      = .returned ⟨⟨[⟨5, .static_report_error, []⟩]⟩⟩ :=
  ⟨by decide,
    C6_static_report_error reportOne ⟨emptyContext⟩ (APInt.ofInt 32 1) [.Other, .Other] rfl rfl
      (APInt.getZExtValue_ofInt_one 32 (by decide))⟩

/-- C7 (as stated, refuted): the first operand of `reportMinusOne` is an integer
literal whose value is -1, a negative value other than 1; it is the 1-bit
literal, whose one bit is set, so line 110 finds it equal to 1 and the call is
diagnosed. -/
theorem C7_counterexample :
    reportMinusOne.ID = BuiltinValueKind.StaticReport ∧
    reportMinusOne.Arguments = [.IntegerLiteralInst (APInt.ofInt 1 (-1)), .Other] ∧
    (APInt.ofInt 1 (-1)).getSExtValue = -1 ∧
    diagnoseStaticReports (.BuiltinInst reportMinusOne) ⟨emptyContext⟩
      = .returned ⟨⟨[⟨5, .static_report_error, []⟩]⟩⟩ := by
  decide

/-- C7 (amended): for a call of the `StaticReport` builtin whose first operand
is not an integer literal, or is an integer literal whose bits, read as an
unsigned number, are other than 1, `diagnoseStaticReports` returns with the
context unchanged: no diagnostic. -/
theorem C7_static_report_silent (BI : BuiltinInst) (M : SILModule) (Args0 : SILValue)
    (Rest : List SILValue)
    (hID : BI.ID = BuiltinValueKind.StaticReport)
    (hArgs : BI.Arguments = Args0 :: Rest)
    (hFirst : (∀ Value, Args0 ≠ SILValue.IntegerLiteralInst Value) ∨
      (∃ Value, Args0 = SILValue.IntegerLiteralInst Value ∧ Value.getZExtValue ≠ 1)) :
    diagnoseStaticReports (.BuiltinInst BI) M = .returned M.getASTContext := by
  rcases hFirst with h | ⟨Value, hV, hNe⟩
  · cases Args0 with
    | IntegerLiteralInst Value => exact absurd rfl (h Value)
    | Other => simp [diagnoseStaticReports, hID, hArgs]
  · simp [diagnoseStaticReports, hID, hArgs, hV, APInt.ne, hNe]

/-- C7 (amended), at `Builtin.staticReport(0, ..)` with the 1-bit literal 0, and
at `Builtin.staticReport(-1, ..)` with the 8-bit literal -1, whose bits read
255: neither emits anything. -/
theorem C7_static_report_silent_witness :
    diagnoseStaticReports (.BuiltinInst reportZero) ⟨emptyContext⟩ = .returned emptyContext ∧
    (APInt.ofInt 8 (-1)).getSExtValue = -1 ∧
    diagnoseStaticReports (.BuiltinInst reportMinusOneWide) ⟨emptyContext⟩
      = .returned emptyContext :=
  ⟨C7_static_report_silent reportZero ⟨emptyContext⟩ (.IntegerLiteralInst (APInt.ofInt 1 0))
      [.Other] rfl rfl (Or.inr ⟨APInt.ofInt 1 0, rfl, by decide⟩),
    by decide,
    C7_static_report_silent reportMinusOneWide ⟨emptyContext⟩
      (.IntegerLiteralInst (APInt.ofInt 8 (-1))) [.Other] rfl rfl
      (Or.inr ⟨APInt.ofInt 8 (-1), rfl, by decide⟩)⟩

/-! ## The internal-consistency failure -/

/-- C8: for an `unreachable` whose location is valid, not mandatory inlined and
tests as an `AbstractFunctionDecl` or a `ClosureExpr`, in a function whose
location yields neither a `FuncDecl` nor a `ClosureExpr`, `diagnoseUnreachable`
aborts at `llvm_unreachable` with the engine untouched; in particular it does
not return, neither silently nor with a diagnostic. -/
theorem C8_unhandled_case_aborts (UI : UnreachableInst) (F : SILFunction)
    (Context : ASTContext)
    (hValid : UI.Loc.isNull = false)
    (hInlined : UI.Loc.isMandatoryInlinedLocation = false)
    (hBody : UI.Loc.isASTNode_AbstractFunctionDecl = true ∨ UI.Loc.isASTNode_ClosureExpr = true)
    (hFunc : F.getLocation.getAsASTNode_FuncDecl = none)
    (hClosure : F.getLocation.getAsASTNode_ClosureExpr = none) :
    diagnoseUnreachable (.UnreachableInst UI) F Context
        = .aborted .unhandledCaseInMissingReturn Context ∧
      ∀ Context1, diagnoseUnreachable (.UnreachableInst UI) F Context ≠ .returned Context1 := by
  have hB : (UI.Loc.isASTNode_AbstractFunctionDecl || UI.Loc.isASTNode_ClosureExpr) = true := by
    rcases hBody with h | h <;> simp [h]
  have hAbort : diagnoseUnreachable (.UnreachableInst UI) F Context
      = .aborted .unhandledCaseInMissingReturn Context := by
    simp [diagnoseUnreachable, diagnoseMissingReturn, hValid, hInlined, hB, hFunc, hClosure]
  refine ⟨hAbort, ?_⟩
  intro Context1 hRet
  rw [hAbort] at hRet
  cases hRet

/-- C8, at an `unreachable` located at a `FuncDecl` inside a function whose
location is a constructor declaration. -/
theorem C8_unhandled_case_aborts_witness :
    diagnoseUnreachable (.UnreachableInst ⟨funcLoc⟩) ctorFn emptyContext
        = .aborted .unhandledCaseInMissingReturn emptyContext ∧
      ∀ Context1,
        diagnoseUnreachable (.UnreachableInst ⟨funcLoc⟩) ctorFn emptyContext
          ≠ .returned Context1 :=
  C8_unhandled_case_aborts ⟨funcLoc⟩ ctorFn emptyContext rfl rfl (Or.inl rfl) rfl rfl

/-! ## The driver -/

/-- C9: when `run` returns, the diagnostics in the engine are those it held
before, followed by the per-instruction diagnostics concatenated over the
blocks in stored order and, within each block, over the instructions in block
order: each is forwarded as produced, none is held back, dropped or moved. -/
theorem C9_run_traversal_order (F : SILFunction) (M : SILModule) (Context1 : ASTContext)
    (h : run F M = .returned Context1) :
    Context1.Diags.Emitted = M.getASTContext.Diags.Emitted ++ traversalDiagnostics F :=
  runBlocks_returned F F.Blocks M.getASTContext Context1 h

/-- C9, on `twoBlockFn`: the static report at position 5 comes first, then the
switch at 77, then the same static report once more, then the guard at 93; the
sequence is neither sorted by location nor free of duplicates. -/
theorem C9_run_traversal_order_witness :
    run twoBlockFn ⟨emptyContext⟩
        = .returned ⟨⟨[⟨5, .static_report_error, []⟩, ⟨77, .non_exhaustive_switch, []⟩,
            ⟨5, .static_report_error, []⟩, ⟨93, .guard_body_must_not_fallthrough, []⟩]⟩⟩ ∧
      ([⟨5, .static_report_error, []⟩, ⟨77, .non_exhaustive_switch, []⟩,
          ⟨5, .static_report_error, []⟩, ⟨93, .guard_body_must_not_fallthrough, []⟩]
          : List Diagnostic)
        = emptyContext.Diags.Emitted ++ traversalDiagnostics twoBlockFn :=
  ⟨by decide,
    C9_run_traversal_order twoBlockFn ⟨emptyContext⟩
      ⟨⟨[⟨5, .static_report_error, []⟩, ⟨77, .non_exhaustive_switch, []⟩,
        ⟨5, .static_report_error, []⟩, ⟨93, .guard_body_must_not_fallthrough, []⟩]⟩⟩
      (by decide)⟩

/-- C10: what a run of the pass on `F` does is fixed by `F` alone. Whatever the
engine holds when the run starts, the run appends `runDiagnostics F` to it and
aborts or not as the run on an empty engine does; so a second run on the same
`F`, started where the first one ended, appends the same sequence again. -/
theorem C10_run_repeatable (F : SILFunction) (M : SILModule) :
    (run F M).Emitted = M.getASTContext.Diags.Emitted ++ runDiagnostics F ∧
      (run F ⟨(run F M).Context⟩).Emitted = (run F M).Emitted ++ runDiagnostics F ∧
      (run F M).isAborted = (run F ⟨emptyContext⟩).isAborted ∧
      (run F ⟨(run F M).Context⟩).isAborted = (run F M).isAborted := by
  have h1 : ∀ M1 : SILModule,
      (run F M1).Emitted = M1.getASTContext.Diags.Emitted ++ runDiagnostics F := by
    intro M1
    rw [run_eq_prepend F M1, Exec.prepend_Emitted]
    rfl
  have h2 : ∀ M1 : SILModule, (run F M1).isAborted = (run F ⟨emptyContext⟩).isAborted := by
    intro M1
    rw [run_eq_prepend F M1, Exec.prepend_isAborted]
  refine ⟨h1 M, ?_, h2 M, ?_⟩
  · rw [h1 ⟨(run F M).Context⟩]
    rfl
  · rw [h2 ⟨(run F M).Context⟩, h2 M]

/-! ## Remaining cases of the classification -/

/-- C11: for an `unreachable` whose location is valid, not mandatory inlined,
and holds none of an `AbstractFunctionDecl`, a `ClosureExpr`, a `SwitchStmt`
or a `GuardStmt`, `diagnoseUnreachable` returns (it does not abort) with the
context unchanged: no diagnostic. -/
theorem C11_other_provenance_silent (UI : UnreachableInst) (F : SILFunction)
    (Context : ASTContext)
    (hValid : UI.Loc.isNull = false)
    (hInlined : UI.Loc.isMandatoryInlinedLocation = false)
    (hFunc : UI.Loc.isASTNode_AbstractFunctionDecl = false)
    (hClosure : UI.Loc.isASTNode_ClosureExpr = false)
    (hSwitch : UI.Loc.isASTNode_SwitchStmt = false)
    (hGuard : UI.Loc.getAsASTNode_GuardStmt = none) :
    diagnoseUnreachable (.UnreachableInst UI) F Context = .returned Context := by
  simp [diagnoseUnreachable, hValid, hInlined, hFunc, hClosure, hSwitch, hGuard]

/-- C11, at a location on some other node, inside a constructor. -/
theorem C11_other_provenance_silent_witness :
    diagnoseUnreachable (.UnreachableInst ⟨otherLoc⟩) ctorFn emptyContext
      = .returned emptyContext :=
  C11_other_provenance_silent ⟨otherLoc⟩ ctorFn emptyContext rfl rfl rfl rfl rfl rfl

/-- C12: when an `unreachable` whose location is valid, not mandatory inlined
and an `AbstractFunctionDecl` or a `ClosureExpr` is diagnosed, its location
holding the node of the enclosing function's own location (the provenance is
the declaration of the enclosing function itself, as lines 76-78 have it), the
one diagnostic emitted carries the declared result type of the function or
closure declaration that the instruction's own location references. -/
theorem C12_result_type_of_own_declaration (UI : UnreachableInst) (F : SILFunction)
    (Context Context1 : ASTContext)
    (hValid : UI.Loc.isNull = false)
    (hInlined : UI.Loc.isMandatoryInlinedLocation = false)
    (hBody : UI.Loc.isASTNode_AbstractFunctionDecl = true ∨ UI.Loc.isASTNode_ClosureExpr = true)
    (hOwn : UI.Loc.Node = F.getLocation.Node)
    (hDiagnosed : diagnoseUnreachable (.UnreachableInst UI) F Context = .returned Context1) :
    ∃ (T : Nat) (ID : DiagID) (Flag : Nat),
      UI.Loc.declaredResultType = some (some T) ∧
      Context1.Diags.Emitted = Context.Diags.Emitted ++
        [⟨UI.Loc.getEndSourceLoc, ID, [.type (some T), .unsigned Flag]⟩] := by
  rw [diagnoseUnreachable_body UI F Context hValid hInlined hBody,
    diagnoseMissingReturn_eq] at hDiagnosed
  have hTy : UI.Loc.declaredResultType = F.getLocation.declaredResultType := by
    unfold SILLocation.declaredResultType
    rw [hOwn]
  cases hT : F.getLocation.declaredResultType with
  | none => rw [hT] at hDiagnosed; simp at hDiagnosed
  | some ResTy =>
    rw [hT] at hDiagnosed
    cases ResTy with
    | none => simp at hDiagnosed
    | some T =>
      simp only [hValid, Option.isNone_some, Bool.or_self, Bool.false_eq_true, if_false,
        Exec.returned.injEq] at hDiagnosed
      refine ⟨T, if F.isNoReturnFunction then DiagID.missing_never_call
        else DiagID.missing_return,
        if F.getLocation.isASTNode_ClosureExpr then 1 else 0, hTy.trans hT, ?_⟩
      rw [← hDiagnosed]
      rfl

/-- C12, at an `unreachable` located at `funcLoc` in the function `funcFn`
located there: the type carried is 7, the result type of that `FuncDecl`. -/
theorem C12_result_type_of_own_declaration_witness :
    funcLoc.declaredResultType = some (some 7) ∧
    ∃ (T : Nat) (ID : DiagID) (Flag : Nat),
      funcLoc.declaredResultType = some (some T) ∧
      ([⟨42, .missing_return, [.type (some 7), .unsigned 0]⟩] : List Diagnostic)
        = emptyContext.Diags.Emitted ++
          [⟨funcLoc.getEndSourceLoc, ID, [.type (some T), .unsigned Flag]⟩] :=
  ⟨rfl, C12_result_type_of_own_declaration ⟨funcLoc⟩ funcFn emptyContext
    ⟨⟨[⟨42, .missing_return, [.type (some 7), .unsigned 0]⟩]⟩⟩ rfl rfl (Or.inl rfl) rfl
    (by decide)⟩

/-- C13: when an `unreachable` whose location is valid, not mandatory inlined
and an `AbstractFunctionDecl` or a `ClosureExpr` is diagnosed, the second
argument of the one diagnostic emitted is 1 exactly when the function whose
body falls through is located at a `ClosureExpr`, and 0 exactly when it is
located at a `FuncDecl`. -/
theorem C13_closure_flag (UI : UnreachableInst) (F : SILFunction)
    (Context Context1 : ASTContext)
    (hValid : UI.Loc.isNull = false)
    (hInlined : UI.Loc.isMandatoryInlinedLocation = false)
    (hBody : UI.Loc.isASTNode_AbstractFunctionDecl = true ∨ UI.Loc.isASTNode_ClosureExpr = true)
    (hDiagnosed : diagnoseUnreachable (.UnreachableInst UI) F Context = .returned Context1) :
    ∃ (T : Ty) (ID : DiagID) (Flag : Nat),
      Context1.Diags.Emitted = Context.Diags.Emitted ++
        [⟨UI.Loc.getEndSourceLoc, ID, [.type T, .unsigned Flag]⟩] ∧
      (Flag = 1 ↔ F.getLocation.isASTNode_ClosureExpr = true) ∧
      (Flag = 0 ↔ F.getLocation.getAsASTNode_FuncDecl.isSome = true) := by
  rw [diagnoseUnreachable_body UI F Context hValid hInlined hBody,
    diagnoseMissingReturn_eq] at hDiagnosed
  cases hT : F.getLocation.declaredResultType with
  | none => rw [hT] at hDiagnosed; simp at hDiagnosed
  | some ResTy =>
    rw [hT] at hDiagnosed
    cases ResTy with
    | none => simp at hDiagnosed
    | some T =>
      simp only [hValid, Option.isNone_some, Bool.or_self, Bool.false_eq_true, if_false,
        Exec.returned.injEq] at hDiagnosed
      refine ⟨some T, if F.isNoReturnFunction then DiagID.missing_never_call
        else DiagID.missing_return,
        if F.getLocation.isASTNode_ClosureExpr then 1 else 0, ?_, ?_, ?_⟩
      · rw [← hDiagnosed]
        rfl
      · cases F.getLocation.isASTNode_ClosureExpr <;> simp
      · unfold SILLocation.declaredResultType at hT
        unfold SILLocation.isASTNode_ClosureExpr SILLocation.getAsASTNode_FuncDecl
        cases hN : F.getLocation.Node with
        | none => rw [hN] at hT; simp at hT
        | some N => cases N <;> simp_all

/-- C13, at a never-returning closure of result type 9: the flag is 1. -/
theorem C13_closure_flag_witness :
    ∃ (T : Ty) (ID : DiagID) (Flag : Nat),
      ([⟨58, .missing_never_call, [.type (some 9), .unsigned 1]⟩] : List Diagnostic)
        = emptyContext.Diags.Emitted ++
          [⟨closureLoc.getEndSourceLoc, ID, [.type T, .unsigned Flag]⟩] ∧
      (Flag = 1 ↔ closureNeverFn.getLocation.isASTNode_ClosureExpr = true) ∧
      (Flag = 0 ↔ closureNeverFn.getLocation.getAsASTNode_FuncDecl.isSome = true) :=
  C13_closure_flag ⟨closureLoc⟩ closureNeverFn emptyContext
    ⟨⟨[⟨58, .missing_never_call, [.type (some 9), .unsigned 1]⟩]⟩⟩ rfl rfl (Or.inr rfl)
    (by decide)

/-- C14: an instruction that is neither an `unreachable` nor a builtin call, and
a builtin call whose builtin is not `StaticReport` (whatever its operands),
makes both checks return with the context unchanged: the pass emits no
diagnostic for it and does not abort on it. -/
theorem C14_other_instructions_silent (F : SILFunction) (I : SILInstruction)
    (Context : ASTContext)
    (hKind : (∃ Loc, I = SILInstruction.Other Loc) ∨
      (∃ BI, I = SILInstruction.BuiltinInst BI ∧ BI.ID ≠ BuiltinValueKind.StaticReport)) :
    runInst F I Context = .returned Context ∧ instDiagnostics F I = [] := by
  rcases hKind with ⟨Loc, rfl⟩ | ⟨BI, rfl, hID⟩
  · constructor <;> rfl
  · constructor <;>
      simp [instDiagnostics, runInst, diagnoseUnreachable, diagnoseStaticReports, Exec.andThen,
        hID, SILModule.getASTContext, Exec.Emitted, Exec.Context, emptyContext]

/-- C14, at a call of another builtin whose first operand is the literal 1. -/
theorem C14_other_instructions_silent_witness :
    runInst funcFn (.BuiltinInst otherBuiltinOne) emptyContext = .returned emptyContext ∧
      instDiagnostics funcFn (.BuiltinInst otherBuiltinOne) = [] :=
  C14_other_instructions_silent funcFn (.BuiltinInst otherBuiltinOne) emptyContext
    (Or.inr ⟨otherBuiltinOne, rfl, by decide⟩)

/-- C16: classification of an `unreachable` aborts exactly when its location is
valid, not mandatory inlined, an `AbstractFunctionDecl` or a `ClosureExpr`, and
either the enclosing function's location is neither a `FuncDecl` nor a
`ClosureExpr` or the result type looked up there is null; otherwise it
returns. In particular, a valid, not inlined `unreachable` located at a
constructor or destructor declaration, in a function located at that same
declaration, aborts at `llvm_unreachable` with nothing emitted. -/
theorem C16_abort_exactly_when (UI : UnreachableInst) (F : SILFunction)
    (Context : ASTContext) :
    ((diagnoseUnreachable (.UnreachableInst UI) F Context).isAborted = true ↔
      (UI.Loc.isNull = false ∧ UI.Loc.isMandatoryInlinedLocation = false ∧
        (UI.Loc.isASTNode_AbstractFunctionDecl = true ∨ UI.Loc.isASTNode_ClosureExpr = true) ∧
        ((F.getLocation.getAsASTNode_FuncDecl = none ∧
            F.getLocation.getAsASTNode_ClosureExpr = none) ∨
          (∃ FD, F.getLocation.getAsASTNode_FuncDecl = some FD ∧
            FD.ResultInterfaceType = none) ∨
          (∃ CE, F.getLocation.getAsASTNode_ClosureExpr = some CE ∧
            CE.ResultType = none)))) ∧
    ((diagnoseUnreachable (.UnreachableInst UI) F Context).isAborted = false ↔
      ∃ Context1, diagnoseUnreachable (.UnreachableInst UI) F Context = .returned Context1) ∧
    (UI.Loc.isNull = false → UI.Loc.isMandatoryInlinedLocation = false →
      (UI.Loc.Node = some ASTNode.ConstructorDecl ∨ UI.Loc.Node = some ASTNode.DestructorDecl) →
      F.getLocation = UI.Loc →
      diagnoseUnreachable (.UnreachableInst UI) F Context
        = .aborted .unhandledCaseInMissingReturn Context) := by
  refine ⟨?_, ?_, ?_⟩
  · cases hNull : UI.Loc.isNull with
    | true => simp [diagnoseUnreachable, hNull, Exec.isAborted]
    | false =>
      cases hInl : UI.Loc.isMandatoryInlinedLocation with
      | true => simp [diagnoseUnreachable, hNull, hInl, Exec.isAborted]
      | false =>
        by_cases hBody : UI.Loc.isASTNode_AbstractFunctionDecl = true ∨
            UI.Loc.isASTNode_ClosureExpr = true
        · rw [diagnoseUnreachable_body UI F Context hNull hInl hBody]
          simp only [hBody, true_and]
          cases hN : F.getLocation.Node with
          | none =>
            simp [diagnoseMissingReturn, SILLocation.getAsASTNode_FuncDecl,
              SILLocation.getAsASTNode_ClosureExpr, hN, Exec.isAborted]
          | some FN =>
            rcases FN with ⟨⟨_ | T⟩⟩ | _ | _ | ⟨⟨_ | T⟩⟩ | _ | _ | _ <;>
              simp [diagnoseMissingReturn, SILLocation.getAsASTNode_FuncDecl,
                SILLocation.getAsASTNode_ClosureExpr, hN, hNull, Exec.isAborted]
        · have h1 : UI.Loc.isASTNode_AbstractFunctionDecl = false := by
            cases h : UI.Loc.isASTNode_AbstractFunctionDecl
            · rfl
            · exact absurd (Or.inl h) hBody
          have h2 : UI.Loc.isASTNode_ClosureExpr = false := by
            cases h : UI.Loc.isASTNode_ClosureExpr
            · rfl
            · exact absurd (Or.inr h) hBody
          simp only [diagnoseUnreachable, hNull, hInl, h1, h2, Bool.or_self, Bool.false_eq_true,
            if_false, false_or, false_and, and_false, iff_false, Bool.not_eq_true]
          split
          · rfl
          · split <;> rfl
  · cases diagnoseUnreachable (.UnreachableInst UI) F Context <;> simp [Exec.isAborted]
  · intro hValid hInlined hNode hSame
    have hBody : UI.Loc.isASTNode_AbstractFunctionDecl = true ∨
        UI.Loc.isASTNode_ClosureExpr = true := by
      left
      unfold SILLocation.isASTNode_AbstractFunctionDecl
      rcases hNode with h | h
      · rw [h]
      · rw [h]
    rw [diagnoseUnreachable_body UI F Context hValid hInlined hBody, diagnoseMissingReturn_eq,
      hSame]
    unfold SILLocation.declaredResultType
    rcases hNode with h | h
    · rw [h]
    · rw [h]

/-- C16, at a destructor whose `unreachable` is located at the destructor. -/
theorem C16_abort_exactly_when_witness :
    diagnoseUnreachable (.UnreachableInst ⟨dtorLoc⟩) dtorFn emptyContext
      = .aborted .unhandledCaseInMissingReturn emptyContext :=
  (C16_abort_exactly_when ⟨dtorLoc⟩ dtorFn emptyContext).2.2 rfl rfl (Or.inr rfl) rfl

/-! ## The traversal goes on after a diagnostic -/

/-- C15: for a function whose block list is `A ++ B` and on which `run` does
not abort, the diagnostics in the engine after the run are those it held
before, then those of a run on the same function with block list `A`, then
those of a run on it with block list `B`. Likewise for an instruction list
`X ++ Y` on which the inner loop does not abort. Nothing emitted for an
earlier instruction keeps a later one from being diagnosed. -/
theorem C15_traversal_continues (F : SILFunction) (A B : List SILBasicBlock) (M : SILModule)
    (hSplit : F.Blocks = A ++ B)
    (hOk : (run F M).isAborted = false) :
    (run F M).Emitted = M.getASTContext.Diags.Emitted ++
        (runDiagnostics { F with Blocks := A } ++ runDiagnostics { F with Blocks := B }) ∧
      ∀ (X Y : List SILInstruction) (Context : ASTContext),
        (runInsts F (X ++ Y) Context).isAborted = false →
        (runInsts F (X ++ Y) Context).Emitted = Context.Diags.Emitted ++
          ((runInsts F X emptyContext).Emitted ++ (runInsts F Y emptyContext).Emitted) := by
  constructor
  · unfold run at hOk ⊢
    rw [hSplit, runBlocks_append] at hOk ⊢
    rw [runDiagnostics_restrict, runDiagnostics_restrict]
    exact Framed.andThen_Emitted (runBlocks_framed F A) (runBlocks_framed F B) _ hOk
  · intro X Y Context hXY
    rw [runInsts_append] at hXY ⊢
    exact Framed.andThen_Emitted (runInsts_framed F X) (runInsts_framed F Y) _ hXY

/-- C15, on `twoBlockFn` split after its first block: the second block is
still diagnosed although the first one emitted two diagnostics. -/
theorem C15_traversal_continues_witness :
    (run twoBlockFn ⟨emptyContext⟩).Emitted = emptyContext.Diags.Emitted ++
        (([⟨5, .static_report_error, []⟩, ⟨77, .non_exhaustive_switch, []⟩] : List Diagnostic) ++
          [⟨5, .static_report_error, []⟩, ⟨93, .guard_body_must_not_fallthrough, []⟩]) :=
  (C15_traversal_continues twoBlockFn
    [⟨[.Other callLoc, .BuiltinInst reportOne, .UnreachableInst ⟨switchLoc⟩]⟩]
    [⟨[.BuiltinInst reportOne, .UnreachableInst ⟨guardLoc⟩]⟩]
    ⟨emptyContext⟩ rfl (by decide)).1

/-- C17: on any instruction the two checks, run one after the other, add at
most one diagnostic to the engine. Hence, when `run` returns, the diagnostics
it forwarded are at most as many as the function has instructions; and on a
function with no `unreachable` and no static-report call `run` returns having
forwarded none. -/
theorem C17_at_most_one_per_instruction (F : SILFunction) (M : SILModule) :
    (∀ (I : SILInstruction) (Context : ASTContext),
        (runInst F I Context).Emitted.length ≤ Context.Diags.Emitted.length + 1) ∧
      (∀ Context1 : ASTContext, run F M = .returned Context1 →
        ∃ Forwarded : List Diagnostic,
          Context1.Diags.Emitted = M.getASTContext.Diags.Emitted ++ Forwarded ∧
          Forwarded.length ≤ F.numInsts) ∧
      ((∀ BB ∈ F.Blocks, ∀ I ∈ BB.Insts,
          I.isUnreachableInst = false ∧ I.isStaticReportCall = false) →
        run F M = .returned M.getASTContext) := by
  refine ⟨?_, ?_, ?_⟩
  · intro I Context
    rw [(runInst_framed F I).apply Context, Exec.prepend_Emitted, List.length_append]
    have h := instDiagnostics_length F I
    unfold instDiagnostics at h
    omega
  · intro Context1 hRun
    exact ⟨traversalDiagnostics F, runBlocks_returned F F.Blocks M.getASTContext Context1 hRun,
      traversalDiagnostics_length_blocks F F.Blocks⟩
  · intro hQuiet
    exact runBlocks_quiet F F.Blocks M.getASTContext hQuiet

/-- C17, on `quietFn`, which has three instructions, none of them diagnosable:
the run returns with the engine as it was; and on `twoBlockFn`, which has five
instructions and forwards four diagnostics. -/
theorem C17_at_most_one_per_instruction_witness :
    run quietFn ⟨emptyContext⟩ = .returned emptyContext ∧
      twoBlockFn.numInsts = 5 ∧
      ∃ Forwarded : List Diagnostic,
        ([⟨5, .static_report_error, []⟩, ⟨77, .non_exhaustive_switch, []⟩,
            ⟨5, .static_report_error, []⟩, ⟨93, .guard_body_must_not_fallthrough, []⟩]
            : List Diagnostic)
          = emptyContext.Diags.Emitted ++ Forwarded ∧
        Forwarded.length ≤ twoBlockFn.numInsts :=
  ⟨(C17_at_most_one_per_instruction quietFn ⟨emptyContext⟩).2.2 (by decide), by decide,
    (C17_at_most_one_per_instruction twoBlockFn ⟨emptyContext⟩).2.1
      ⟨⟨[⟨5, .static_report_error, []⟩, ⟨77, .non_exhaustive_switch, []⟩,
        ⟨5, .static_report_error, []⟩, ⟨93, .guard_body_must_not_fallthrough, []⟩]⟩⟩
      (by decide)⟩

/-! ## The operands of a static report -/

/-- C18: a `StaticReport` call with a first operand does not reach the
out-of-range branch of `Args[0]`, and what `diagnoseStaticReports` does on it
is the same for any two lists of remaining operands, the location and the
first operand being equal. With no operand at all, `Args[0]` is out of range. -/
theorem C18_only_first_operand_read (Loc : SILLocation) (Args0 : SILValue)
    (Rest1 Rest2 : List SILValue) (M : SILModule) :
    (∀ Context, diagnoseStaticReports (.BuiltinInst ⟨Loc, .StaticReport, Args0 :: Rest1⟩) M
        ≠ .aborted .argsIndexOutOfRange Context) ∧
      (diagnoseStaticReports (.BuiltinInst ⟨Loc, .StaticReport, Args0 :: Rest1⟩) M).isAborted
        = false ∧
      diagnoseStaticReports (.BuiltinInst ⟨Loc, .StaticReport, Args0 :: Rest1⟩) M
        = diagnoseStaticReports (.BuiltinInst ⟨Loc, .StaticReport, Args0 :: Rest2⟩) M ∧
      diagnoseStaticReports (.BuiltinInst ⟨Loc, .StaticReport, []⟩) M
        = .aborted .argsIndexOutOfRange M.getASTContext := by
  have hOk : (diagnoseStaticReports (.BuiltinInst ⟨Loc, .StaticReport, Args0 :: Rest1⟩)
      M).isAborted = false := by
    cases Args0 with
    | Other => rfl
    | IntegerLiteralInst Value =>
      simp only [diagnoseStaticReports, if_true]
      split <;> rfl
  refine ⟨?_, hOk, ?_, rfl⟩
  · intro Context h
    rw [h] at hOk
    cases hOk
  · cases Args0 <;> rfl

/-- C18, at `Builtin.staticReport(1, <other>, <other>)` against the same call
with the single operand 1: both emit the one `static_report_error` at 5. -/
theorem C18_only_first_operand_read_witness :
    diagnoseStaticReports (.BuiltinInst reportOne) ⟨emptyContext⟩
        = diagnoseStaticReports
            (.BuiltinInst ⟨callLoc, .StaticReport, [.IntegerLiteralInst (APInt.ofInt 32 1)]⟩)
            ⟨emptyContext⟩ ∧
      diagnoseStaticReports (.BuiltinInst ⟨callLoc, .StaticReport, []⟩) ⟨emptyContext⟩
        = .aborted .argsIndexOutOfRange emptyContext :=
  ⟨(C18_only_first_operand_read callLoc (.IntegerLiteralInst (APInt.ofInt 32 1))
      [.Other, .Other] []
      ⟨emptyContext⟩).2.2.1,
    (C18_only_first_operand_read callLoc (.IntegerLiteralInst (APInt.ofInt 32 1))
      [.Other, .Other] []
      ⟨emptyContext⟩).2.2.2⟩

end DataflowDiagnostics
